import Mathlib

/-!
Verification of the analysis engine of `tools/context-research-agent`
(`src/intelligence.rs`), the "resilient, rate-limited, multi-backend
analysis engine" of the specification.

The Rust code is shallowly embedded: external effects (process probes,
backend calls) are passed in as explicit parameters, and the observable
effects of a run (executor calls, rate-limit pauses, user-visible notices)
are recorded in an explicit trace alongside the returned insights.
-/

/-! ## Data model (`context.rs`, `search.rs`, `intelligence.rs`) -/

/-- `Ecosystem` from `context.rs`. -/
inductive Ecosystem
  | Rust
  | Node
  | Python
deriving DecidableEq

/-- `Dependency` from `context.rs`: name, version, ecosystem. -/
structure Dependency where
  name : String
  version : String
  ecosystem : Ecosystem
deriving DecidableEq

/-- Modelled from the spec: the `Issue {state, title}` record of a finding.
`crate::search` is not under `src/`; the spec's data model ("ordered list of
Issue{state, title}") and the field uses in `intelligence.rs`
(`issue.state`, `issue.title`) fix its shape. -/
structure Issue where
  state : String
  title : String
deriving DecidableEq

/-- Modelled from the spec: `SearchResult` (a "Finding") from `crate::search`,
which is not under `src/`.  The spec: "Finding: {dependency identity, ordered
list of Issue}"; `intelligence.rs` reads `r.issues`, `r.dependency.name`,
`r.dependency.version`. -/
structure SearchResult where
  dependency : Dependency
  issues : List Issue
deriving DecidableEq

/-- `Insight` from `intelligence.rs`. -/
structure Insight where
  dependency_name : String
  version : String
  analysis : String
deriving DecidableEq

/-! ## Configuration constants (`intelligence.rs` lines 28-31) -/

def GEMINI_MODEL : String := "gemini-2.5-flash"

def GH_MODEL : String := "meta/llama-3.3-70b-instruct"

def RATE_LIMIT_DELAY_MS : Nat := 3000

def BATCH_SIZE : Nat := 5

/-- The fixed placeholder analysis text substituted for a failed batch
(`intelligence.rs` line 138). -/
def PLACEHOLDER_ANALYSIS : String := "AI analysis unavailable for this batch."

/-- `AIProvider` from `intelligence.rs`. -/
inductive AIProvider
  | GeminiCli
  | GitHubModels
  | None
deriving DecidableEq

/-! ## Backend Detector (`detect_available_provider`, lines 48-81) -/

/-- Abstraction of the external environment consulted by the detector.
`geminiOk c` holds iff spawning `c --version` succeeds with exit status zero
(the `Ok(output) if output.status.success()` guard: a spawn error and a
non-zero exit are both `false`).  `ghOk` holds iff `gh models list` spawns
and exits zero (`.map(|o| o.status.success()).unwrap_or(false)`). -/
structure ProbeEnv where
  geminiOk : String → Bool
  ghOk : Bool

/-- The fixed priority list of Gemini binary-name variants
(`intelligence.rs` line 51). -/
def gemini_commands : List String := ["gemini", "gemini.cmd", "gemini.exe", "gemini.bat"]

/-- `detect_available_provider` (lines 48-81).  The loop over
`gemini_commands` returns on the first probe that exits zero, storing the
winning command name in `GEMINI_COMMAND` (the `OnceLock` cache, modelled as
the second component); otherwise it falls back to the `gh models list` probe,
else `None`. -/
def detect_available_provider (env : ProbeEnv) : AIProvider × Option String :=
  match gemini_commands.find? (fun c => env.geminiOk c) with
  | some cmd => (AIProvider.GeminiCli, some cmd)
  | Option.none =>
    if env.ghOk then (AIProvider.GitHubModels, Option.none)
    else (AIProvider.None, Option.none)

/-! ## Batch Planner : `relevant.chunks(BATCH_SIZE)` (line 113) -/

/-- Fuel-driven worker for `chunksOf`; `fuel ≥ l.length` makes it total for
`n > 0` (each step consumes at least one element). -/
def chunksOfFuel (n : Nat) : Nat → List α → List (List α)
  | _, [] => []
  | 0, _ :: _ => []
  | fuel + 1, x :: xs => (x :: xs).take n :: chunksOfFuel n fuel ((x :: xs).drop n)

/-- Rust `slice::chunks(n)`: contiguous order-preserving chunks of size `n`,
the last possibly shorter; no chunks for the empty slice.  (Rust panics on
`n = 0`; the engine only uses `n = BATCH_SIZE = 5`, and we return `[]`.) -/
def chunksOf (n : Nat) (l : List α) : List (List α) :=
  if n = 0 then [] else chunksOfFuel n l.length l

/-! ## Prompt Builder (`build_batch_prompt`, lines 160-181) -/

/-- `build_batch_prompt`: the fixed instruction preamble followed by, per
finding, its identity header and its issues' states and titles. -/
def build_batch_prompt (batch : List SearchResult) : String :=
  let preamble :=
    "You are a Senior Software Engineer analyzing GitHub issues for multiple libraries. For EACH library below, provide: 1. Known Anomalies: Bugs or quirks in THIS SPECIFIC version. 2. Anti-patterns to Avoid: Common mistakes found in issues. 3. Intelligent Pattern: The recommended way to use this version safely. Be concise but specific. Focus on actionable insights. "
  batch.enum.foldl
    (fun prompt p =>
      let header :=
        "--- Library " ++ toString (p.1 + 1) ++ ": " ++ p.2.dependency.name ++
          " (version " ++ p.2.dependency.version ++ ") Issues Found: "
      p.2.issues.foldl
        (fun pr issue => pr ++ "[" ++ issue.state ++ "] " ++ issue.title ++ ". ")
        (prompt ++ header))
    preamble

/-! ## The engine loop (`analyze_findings`, lines 83-158) -/

/-- An observable external event of a run: one Backend Executor call (with
its batch index), or one Rate Limiter pause (`sleep(RATE_LIMIT_DELAY_MS)`). -/
inductive Event
  | exec (batchIdx : Nat)
  | pause
deriving DecidableEq

def Event.isExec : Event → Bool
  | .exec _ => true
  | .pause => false

/-- Number of Backend Executor calls in an event trace. -/
def execCount (es : List Event) : Nat := (es.filter Event.isExec).length

/-- Number of Rate Limiter pauses in an event trace. -/
def pauseCount (es : List Event) : Nat := (es.filter (fun e => !e.isExec)).length

/-- The observable outcome of a run: the returned `Vec<Insight>`, the ordered
trace of executor calls and pauses, and the user-visible short-circuit
notices (the `println!` messages of lines 87 and 101; the per-batch progress
messages are not notices and are not recorded). -/
structure RunTrace where
  insights : List Insight
  events : List Event
  notices : List String
deriving DecidableEq

/-- Notice printed when no provider is available (line 87). -/
def unavailableNotice : String := "⚠️ No AI provider available. Generating report without analysis."

/-- Notice printed when no finding has issues (line 101). -/
def nothingToAnalyzeNotice : String := "✅ No issues found in dependencies. Skipping analysis."

/-- The `for (batch_idx, batch) in batches.iter().enumerate()` loop
(lines 118-154).  `exec i prompt` is the outcome of the Backend Executor call
for batch `i` (`call_gemini_cli` / `call_gh_models`, abstracted since the
external world may answer differently on every call); a failed call is
absorbed by `unwrap_or_else` into `PLACEHOLDER_ANALYSIS`; the pause runs
exactly when `batch_idx < total_batches - 1`, i.e. when further batches
remain. -/
def processBatches (exec : Nat → String → Except String String) :
    Nat → List (List SearchResult) → List Insight × List Event
  | _, [] => ([], [])
  | i, b :: rest =>
    let batch_prompt := build_batch_prompt b
    let analysis_text :=
      match exec i batch_prompt with
      | .ok text => text
      | .error _ => PLACEHOLDER_ANALYSIS
    let batchInsights :=
      b.map (fun dep => Insight.mk dep.dependency.name dep.dependency.version analysis_text)
    let r := processBatches exec (i + 1) rest
    (batchInsights ++ r.1, Event.exec i :: ((if rest.isEmpty then [] else [Event.pause]) ++ r.2))

/-- `analyze_findings` (lines 83-158), returning `anyhow::Result` as
`Except`: detect a provider once; short-circuit with an empty `Ok` result
when none is available or when no finding has issues; otherwise chunk the
relevant findings into batches of `BATCH_SIZE` and run the batch loop. -/
def analyze_findings (env : ProbeEnv) (exec : Nat → String → Except String String)
    (results : List SearchResult) : Except String RunTrace :=
  let provider := (detect_available_provider env).1
  if provider = AIProvider.None then
    .ok (RunTrace.mk [] [] [unavailableNotice])
  else
    let relevant := results.filter (fun r => !r.issues.isEmpty)
    let total := relevant.length
    if total = 0 then
      .ok (RunTrace.mk [] [] [nothingToAnalyzeNotice])
    else
      let batches := chunksOf BATCH_SIZE relevant
      let p := processBatches exec 0 batches
      .ok (RunTrace.mk p.1 p.2 [])

/-! ## Backend Executors (`call_gemini_cli` lines 184-233, `call_gh_models`
lines 236-262) -/

/-- The captured output of a finished external process
(`std::process::Output`): `status_success` is `output.status.success()`. -/
structure ProcessOutput where
  status_success : Bool
  stdout : String
  stderr : String
deriving DecidableEq

/-- The command-line arguments of the Gemini CLI invocation (lines 193-199). -/
def gemini_cli_args (prompt : String) : List String :=
  ["-m", GEMINI_MODEL, "-o", "json", "--sandbox=false", prompt]

/-- The command name actually invoked: the `OnceLock`-cached detected command,
or `"gemini"` when nothing was cached (lines 186-188). -/
def gemini_invocation_cmd (cached : Option String) : String := cached.getD "gemini"

/-- The command-line arguments of the `gh models run` invocation
(lines 240-246), including the fixed `--max-tokens 2048` cap. -/
def gh_models_args (prompt : String) : List String :=
  ["models", "run", GH_MODEL, prompt, "--max-tokens", "2048"]

/-- Repeatedly drop the (non-empty) prefix `pat` from `s`
(Rust `str::trim_start_matches`, which removes the matching prefix
*repeatedly*).  Fuel-driven; `fuel ≥ s.length` suffices. -/
def dropPrefixRepFuel (pat : List Char) : Nat → List Char → List Char
  | 0, s => s
  | fuel + 1, s =>
    if !pat.isEmpty && pat.isPrefixOf s then dropPrefixRepFuel pat fuel (s.drop pat.length)
    else s

/-- Rust `str::trim_start_matches` for a string pattern. -/
def trim_start_matches (s pat : String) : String :=
  String.mk (dropPrefixRepFuel pat.data s.data.length s.data)

/-- Rust `str::trim_end_matches` for a string pattern. -/
def trim_end_matches (s pat : String) : String :=
  String.mk ((dropPrefixRepFuel pat.data.reverse s.data.length s.data.reverse).reverse)

/-- Rust `str::trim`: drop leading and trailing whitespace. -/
def rustTrim (s : String) : String :=
  String.mk (((s.data.dropWhile Char.isWhitespace).reverse.dropWhile Char.isWhitespace).reverse)

/-- Substring test on character lists. -/
def containsSubAux (pat : List Char) : List Char → Bool
  | [] => pat.isEmpty
  | c :: rest => pat.isPrefixOf (c :: rest) || containsSubAux pat rest

/-- Rust `str::contains` for a string pattern. -/
def str_contains (hay pat : String) : Bool := containsSubAux pat.data hay.data

/-- The markdown code-fence cleanup applied to a parsed Gemini response
(lines 210-216):
`.trim().trim_start_matches("```json").trim_start_matches("```").trim_end_matches("```").trim()`. -/
def clean_gemini_text (response : String) : String :=
  rustTrim
    (trim_end_matches
      (trim_start_matches (trim_start_matches (rustTrim response) "```json") "```")
      "```")

/-- `call_gemini_cli` (lines 184-233).  `spawn` is the result of
`Command::output()` (`.error` = spawn failure propagated by `?`);
`parse_gemini_json` abstracts `serde_json::from_str::<GeminiResponse>`
followed by `.response` (the external `serde_json` library is not repository
code; `Option.none` = parse error).  On exit zero: parse, strip code fences,
reject an empty cleaned text.  On non-zero exit: classify by searching
standard error for recognizable substrings. -/
def call_gemini_cli (spawn : Except String ProcessOutput)
    (parse_gemini_json : String → Option String) : Except String String :=
  match spawn with
  | .error e => .error e
  | .ok output =>
    if output.status_success then
      match parse_gemini_json output.stdout with
      | Option.none => .error "Failed to parse Gemini JSON"
      | some response =>
        let cleaned := clean_gemini_text response
        if cleaned = "" then .error "Empty response from Gemini"
        else .ok cleaned
    else
      let stderr := output.stderr
      if str_contains stderr "429" || str_contains stderr "rate" then
        .error "Rate limit hit. Try again later."
      else if str_contains stderr "auth" || str_contains stderr "login" then
        .error "Not authenticated. Run: gemini login"
      else
        .error ("Gemini CLI error: " ++ stderr)

/-- `call_gh_models` (lines 236-262).  On exit zero: success iff standard
output is non-empty after trimming (note the *untrimmed* output is
returned).  On non-zero exit: classify by searching standard error for the
access-denied signatures. -/
def call_gh_models (spawn : Except String ProcessOutput) : Except String String :=
  match spawn with
  | .error e => .error e
  | .ok output =>
    if output.status_success then
      let response := output.stdout
      if rustTrim response = "" then .error "Empty response from GitHub Models"
      else .ok response
    else
      let stderr := output.stderr
      if str_contains stderr "403" || str_contains stderr "no_access" then
        .error "No access to model. Ensure you have Copilot subscription."
      else
        .error ("GitHub Models error: " ++ stderr)

/-- The analysis text attached to a batch given its executor outcome
(`result.unwrap_or_else(|_| PLACEHOLDER)`, lines 137-139). -/
def textOf : Except String String → String
  | .ok t => t
  | .error _ => PLACEHOLDER_ANALYSIS

/-! ## Helper lemmas: the Batch Planner -/

lemma chunksOfFuel_flatten {α : Type} (n : Nat) (hn : 0 < n) :
    ∀ (fuel : Nat) (l : List α), l.length ≤ fuel → (chunksOfFuel n fuel l).flatten = l := by
  intro fuel
  induction fuel with
  | zero =>
    intro l hl
    have hnil : l = [] := List.length_eq_zero.mp (Nat.le_zero.mp hl)
    subst hnil
    rfl
  | succ f ih =>
    intro l hl
    cases l with
    | nil => rfl
    | cons x xs =>
      have hdrop : ((x :: xs).drop n).length ≤ f := by
        rw [List.length_drop]
        simp only [List.length_cons] at hl ⊢
        omega
      simp only [chunksOfFuel, List.flatten_cons, ih _ hdrop, List.take_append_drop]

lemma chunksOf_flatten {α : Type} (n : Nat) (hn : 0 < n) (l : List α) :
    (chunksOf n l).flatten = l := by
  unfold chunksOf
  rw [if_neg (Nat.pos_iff_ne_zero.mp hn)]
  exact chunksOfFuel_flatten n hn l.length l (Nat.le_refl _)

lemma chunksOfFuel_length {α : Type} (n : Nat) (hn : 0 < n) :
    ∀ (fuel : Nat) (l : List α), l.length ≤ fuel →
      (chunksOfFuel n fuel l).length = (l.length + n - 1) / n := by
  intro fuel
  induction fuel with
  | zero =>
    intro l hl
    have hnil : l = [] := List.length_eq_zero.mp (Nat.le_zero.mp hl)
    subst hnil
    simp [chunksOfFuel, Nat.div_eq_of_lt (show n - 1 < n by omega)]
  | succ f ih =>
    intro l hl
    cases l with
    | nil => simp [chunksOfFuel, Nat.div_eq_of_lt (show n - 1 < n by omega)]
    | cons x xs =>
      have hdrop : ((x :: xs).drop n).length ≤ f := by
        rw [List.length_drop]
        simp only [List.length_cons] at hl ⊢
        omega
      simp only [chunksOfFuel, List.length_cons, ih _ hdrop, List.length_drop]
      by_cases hc : n ≤ xs.length + 1
      · have h1 : xs.length + 1 - n + n - 1 = xs.length + 1 - 1 := by omega
        have h2 : xs.length + 1 + n - 1 = (xs.length + 1 - 1) + n := by omega
        rw [h1, h2, Nat.add_div_right _ hn]
      · have h1 : xs.length + 1 - n = 0 := by omega
        have h2 : xs.length + 1 + n - 1 = (xs.length + 1 - 1) + n := by omega
        rw [h1, h2, Nat.add_div_right _ hn, Nat.zero_add,
          Nat.div_eq_of_lt (show n - 1 < n by omega),
          Nat.div_eq_of_lt (show xs.length + 1 - 1 < n by omega)]

lemma chunksOf_length {α : Type} (n : Nat) (hn : 0 < n) (l : List α) :
    (chunksOf n l).length = (l.length + n - 1) / n := by
  unfold chunksOf
  rw [if_neg (Nat.pos_iff_ne_zero.mp hn)]
  exact chunksOfFuel_length n hn l.length l (Nat.le_refl _)

lemma chunksOfFuel_mem {α : Type} (n : Nat) (hn : 0 < n) :
    ∀ (fuel : Nat) (l : List α) (b : List α), l.length ≤ fuel →
      b ∈ chunksOfFuel n fuel l → b ≠ [] ∧ b.length ≤ n := by
  intro fuel
  induction fuel with
  | zero =>
    intro l b hl hb
    have hnil : l = [] := List.length_eq_zero.mp (Nat.le_zero.mp hl)
    subst hnil
    simp [chunksOfFuel] at hb
  | succ f ih =>
    intro l b hl hb
    cases l with
    | nil => simp [chunksOfFuel] at hb
    | cons x xs =>
      have hdrop : ((x :: xs).drop n).length ≤ f := by
        rw [List.length_drop]
        simp only [List.length_cons] at hl ⊢
        omega
      simp only [chunksOfFuel, List.mem_cons] at hb
      rcases hb with hb | hb
      · subst hb
        constructor
        · cases n with
          | zero => omega
          | succ m => simp [List.take]
        · rw [List.length_take]
          exact inf_le_left
      · exact ih _ _ hdrop hb

lemma chunksOf_mem {α : Type} (n : Nat) (hn : 0 < n) (l : List α) (b : List α)
    (hb : b ∈ chunksOf n l) : b ≠ [] ∧ b.length ≤ n := by
  unfold chunksOf at hb
  rw [if_neg (Nat.pos_iff_ne_zero.mp hn)] at hb
  exact chunksOfFuel_mem n hn l.length l b (Nat.le_refl _) hb

/-! ## Helper lemmas: the batch loop -/

lemma processBatches_fst (exec : Nat → String → Except String String) :
    ∀ (bs : List (List SearchResult)) (i : Nat),
      (processBatches exec i bs).1 =
        (List.enumFrom i bs).flatMap (fun p =>
          p.2.map (fun dep => Insight.mk dep.dependency.name dep.dependency.version
            (textOf (exec p.1 (build_batch_prompt p.2))))) := by
  intro bs
  induction bs with
  | nil => intro i; rfl
  | cons b rest ih =>
    intro i
    show (processBatches exec i (b :: rest)).1 = _
    simp only [processBatches, List.enumFrom, List.flatMap_cons, ih]
    cases h : exec i (build_batch_prompt b) <;> simp [textOf, h]

lemma processBatches_pairs (exec : Nat → String → Except String String) :
    ∀ (bs : List (List SearchResult)) (i : Nat),
      (processBatches exec i bs).1.map (fun ins => (ins.dependency_name, ins.version)) =
        bs.flatten.map (fun r => (r.dependency.name, r.dependency.version)) := by
  intro bs
  induction bs with
  | nil => intro i; rfl
  | cons b rest ih =>
    intro i
    simp only [processBatches, List.flatten_cons, List.map_append, List.map_map, ih]
    rfl

/-- The expected event trace of a run with `k` batches starting at batch
index `i`: executor calls in order, with exactly one pause strictly between
consecutive calls. -/
def expectedEvents : Nat → Nat → List Event
  | _, 0 => []
  | i, 1 => [Event.exec i]
  | i, k + 2 => Event.exec i :: Event.pause :: expectedEvents (i + 1) (k + 1)

lemma processBatches_snd (exec : Nat → String → Except String String) :
    ∀ (bs : List (List SearchResult)) (i : Nat),
      (processBatches exec i bs).2 = expectedEvents i bs.length := by
  intro bs
  induction bs with
  | nil => intro i; rfl
  | cons b rest ih =>
    intro i
    cases rest with
    | nil => rfl
    | cons r rs =>
      rw [show (processBatches exec i (b :: r :: rs)).2 =
            Event.exec i :: Event.pause :: (processBatches exec (i + 1) (r :: rs)).2 from rfl,
          ih (i + 1)]
      rfl

lemma expectedEvents_execCount : ∀ (k i : Nat), execCount (expectedEvents i k) = k
  | 0, _ => rfl
  | 1, _ => rfl
  | k + 2, i => by
    have ih := expectedEvents_execCount (k + 1) (i + 1)
    simp only [execCount] at ih
    simp only [expectedEvents, execCount, List.filter_cons, Event.isExec]
    simp [ih]

lemma expectedEvents_pauseCount : ∀ (k i : Nat), pauseCount (expectedEvents i k) = k - 1
  | 0, _ => rfl
  | 1, _ => rfl
  | k + 2, i => by
    have ih := expectedEvents_pauseCount (k + 1) (i + 1)
    have h2 : ∀ (E : List Event), pauseCount (Event.exec i :: Event.pause :: E) = 1 + pauseCount E := by
      intro E
      simp [pauseCount, List.filter_cons, Event.isExec]
      try omega
    rw [show expectedEvents i (k + 2) =
          Event.exec i :: Event.pause :: expectedEvents (i + 1) (k + 1) from rfl, h2, ih]
    omega

lemma expectedEvents_ne_nil : ∀ (k i : Nat), 0 < k → expectedEvents i k ≠ []
  | 1, i, _ => by simp [expectedEvents]
  | k + 2, i, _ => by simp [expectedEvents]

lemma expectedEvents_head? : ∀ (k i : Nat), 0 < k →
    (expectedEvents i k).head? = some (Event.exec i)
  | 1, _, _ => rfl
  | _ + 2, _, _ => rfl

lemma getLast?_cons_of_ne_nil (a : Event) (l : List Event) (h : l ≠ []) :
    (a :: l).getLast? = l.getLast? := by
  cases l with
  | nil => exact absurd rfl h
  | cons b bs => exact List.getLast?_cons_cons

lemma expectedEvents_getLast? : ∀ (k i : Nat), 0 < k →
    (expectedEvents i k).getLast? = some (Event.exec (i + k - 1))
  | 1, i, _ => by simp [expectedEvents]
  | k + 2, i, _ => by
    have ih := expectedEvents_getLast? (k + 1) (i + 1) (by omega)
    have hne : expectedEvents (i + 1) (k + 1) ≠ [] := expectedEvents_ne_nil (k + 1) (i + 1) (by omega)
    show (Event.exec i :: Event.pause :: expectedEvents (i + 1) (k + 1)).getLast? = _
    rw [List.getLast?_cons_cons, getLast?_cons_of_ne_nil _ _ hne, ih,
        show i + 1 + (k + 1) - 1 = i + (k + 2) - 1 from by omega]

/-- Total length of the first `k` batches. -/
def prefLen (bs : List (List SearchResult)) (k : Nat) : Nat :=
  ((bs.take k).map List.length).sum

lemma processBatches_take_agree (f g : Nat → String → Except String String) :
    ∀ (bs : List (List SearchResult)) (i k : Nat),
      (∀ j, i ≤ j → j < i + k → f j = g j) →
      (processBatches f i bs).1.take (prefLen bs k) =
        (processBatches g i bs).1.take (prefLen bs k) := by
  intro bs
  induction bs with
  | nil => intro i k h; rfl
  | cons b rest ih =>
    intro i k h
    cases k with
    | zero => simp [prefLen]
    | succ k =>
      have hfg : f i = g i := h i (Nat.le_refl i) (by omega)
      have hpl : prefLen (b :: rest) (k + 1) = b.length + prefLen rest k := by
        simp [prefLen, List.take_succ_cons]
      rw [hpl,
          show (processBatches f i (b :: rest)).1 =
            (b.map (fun dep => Insight.mk dep.dependency.name dep.dependency.version
              (textOf (f i (build_batch_prompt b))))) ++ (processBatches f (i + 1) rest).1 from rfl,
          show (processBatches g i (b :: rest)).1 =
            (b.map (fun dep => Insight.mk dep.dependency.name dep.dependency.version
              (textOf (g i (build_batch_prompt b))))) ++ (processBatches g (i + 1) rest).1 from rfl,
          List.take_append_eq_append_take, List.take_append_eq_append_take, hfg]
      congr 1
      have hlen : b.length + prefLen rest k -
          (b.map (fun dep => Insight.mk dep.dependency.name dep.dependency.version
            (textOf (g i (build_batch_prompt b))))).length = prefLen rest k := by
        simp
      rw [hlen]
      exact ih (i + 1) k (fun j hj1 hj2 => h j (by omega) (by omega))

/-! ## Helper lemmas: the whole run -/

lemma detect_none_of_all_fail (env : ProbeEnv)
    (hg : ∀ c ∈ gemini_commands, env.geminiOk c = false) (hgh : env.ghOk = false) :
    detect_available_provider env = (AIProvider.None, Option.none) := by
  have h1 : gemini_commands.find? (fun c => env.geminiOk c) = Option.none :=
    List.find?_eq_none.mpr (fun x hx => by simp [hg x hx])
  simp [detect_available_provider, h1, hgh]

lemma analyze_findings_of_detected (env : ProbeEnv)
    (exec : Nat → String → Except String String) (results : List SearchResult)
    (hdet : (detect_available_provider env).1 ≠ AIProvider.None) :
    analyze_findings env exec results =
      (if (results.filter (fun r => !r.issues.isEmpty)).length = 0 then
        Except.ok (RunTrace.mk [] [] [nothingToAnalyzeNotice])
      else
        Except.ok (RunTrace.mk
          (processBatches exec 0
            (chunksOf BATCH_SIZE (results.filter (fun r => !r.issues.isEmpty)))).1
          (processBatches exec 0
            (chunksOf BATCH_SIZE (results.filter (fun r => !r.issues.isEmpty)))).2
          [])) := by
  simp only [analyze_findings]
  rw [if_neg hdet]

lemma analyze_findings_of_none (env : ProbeEnv)
    (exec : Nat → String → Except String String) (results : List SearchResult)
    (hdet : (detect_available_provider env).1 = AIProvider.None) :
    analyze_findings env exec results =
      Except.ok (RunTrace.mk [] [] [unavailableNotice]) := by
  simp only [analyze_findings]
  rw [if_pos hdet]

/-! ## Concrete fixtures for witnesses and counterexamples -/

/-- Environment in which every probe fails (no backend installed). -/
def envAllFail : ProbeEnv := ProbeEnv.mk (fun _ => false) false

/-- Environment in which every Gemini probe succeeds. -/
def envGeminiOk : ProbeEnv := ProbeEnv.mk (fun _ => true) false

/-- Backend executor whose every call fails. -/
def execAllFail : Nat → String → Except String String := fun _ _ => Except.error "call failed"

def sampleDep : Dependency := Dependency.mk "serde" "1.0.0" Ecosystem.Rust

def sampleIssue : Issue := Issue.mk "open" "panic on deeply nested structures"

/-- A candidate finding (one issue). -/
def sampleFinding : SearchResult := SearchResult.mk sampleDep [sampleIssue]

/-- A finding with zero issues (not a candidate). -/
def noIssueFinding : SearchResult :=
  SearchResult.mk (Dependency.mk "tokio" "1.38.0" Ecosystem.Rust) []

/-! ## Claims -/

/-- C1 (amended): in every run in which the Backend Detector selects a
provider, the returned Insight list has exactly one element per candidate
Finding (a Finding with at least one issue), and for every index i the i-th
Insight carries the dependency name and version of the i-th candidate,
regardless of how the candidates were batched and regardless of which
batches failed. -/
theorem C1_insights_match_candidates (env : ProbeEnv)
    (exec : Nat → String → Except String String) (results : List SearchResult)
    (hdet : (detect_available_provider env).1 ≠ AIProvider.None) :
    ∃ t, analyze_findings env exec results = Except.ok t ∧
      t.insights.map (fun ins => (ins.dependency_name, ins.version)) =
        (results.filter (fun r => !r.issues.isEmpty)).map
          (fun r => (r.dependency.name, r.dependency.version)) ∧
      t.insights.length = (results.filter (fun r => !r.issues.isEmpty)).length := by
  rw [analyze_findings_of_detected env exec results hdet]
  by_cases h0 : (results.filter (fun r => !r.issues.isEmpty)).length = 0
  · rw [if_pos h0]
    have hrel : results.filter (fun r => !r.issues.isEmpty) = [] := List.length_eq_zero.mp h0
    refine ⟨_, rfl, ?_, ?_⟩
    · rw [hrel]; rfl
    · rw [h0]; rfl
  · rw [if_neg h0]
    have hp := processBatches_pairs exec
      (chunksOf BATCH_SIZE (results.filter (fun r => !r.issues.isEmpty))) 0
    rw [chunksOf_flatten BATCH_SIZE (by decide)] at hp
    refine ⟨_, rfl, hp, ?_⟩
    have hlen := congrArg List.length hp
    simpa using hlen

/-- C1 witness: a detected backend, one candidate finding, a failing
executor: exactly one insight, carrying the candidate's name and version. -/
theorem C1_witness :
    ∃ t, analyze_findings envGeminiOk execAllFail [sampleFinding] = Except.ok t ∧
      t.insights.map (fun ins => (ins.dependency_name, ins.version)) =
        ([sampleFinding].filter (fun r => !r.issues.isEmpty)).map
          (fun r => (r.dependency.name, r.dependency.version)) ∧
      t.insights.length = ([sampleFinding].filter (fun r => !r.issues.isEmpty)).length :=
  C1_insights_match_candidates envGeminiOk execAllFail [sampleFinding] (by decide)

/-- C1 counterexample: as stated ("for every run"), the claim is false: when
no backend is detected, a run with one candidate finding returns an empty
Insight list (zero insights for one candidate). -/
theorem C1_counterexample :
    ¬ (∀ (env : ProbeEnv) (exec : Nat → String → Except String String)
        (results : List SearchResult),
        ∃ t, analyze_findings env exec results = Except.ok t ∧
          t.insights.length = (results.filter (fun r => !r.issues.isEmpty)).length) := by
  intro hclaim
  obtain ⟨t, ht, hlen⟩ := hclaim envAllFail execAllFail [sampleFinding]
  rw [show analyze_findings envAllFail execAllFail [sampleFinding] =
        Except.ok (RunTrace.mk [] [] [unavailableNotice]) from rfl] at ht
  rw [← Except.ok.inj ht] at hlen
  exact absurd hlen (by decide)

/-- C2 (amended): in every run in which the Backend Detector selects a
provider and there are N > 0 candidate Findings, the Backend Executor is
invoked exactly ⌈N/BATCH_SIZE⌉ times, once per batch (the batches being the
order-preserving contiguous chunks of size at most BATCH_SIZE), and the Rate
Limiter pause fires exactly ⌈N/BATCH_SIZE⌉ - 1 times, never before the first
batch and never after the last (the event trace starts and ends with an
executor call, pauses strictly interleaved). -/
theorem C2_executor_and_pause_counts (env : ProbeEnv)
    (exec : Nat → String → Except String String) (results : List SearchResult)
    (hdet : (detect_available_provider env).1 ≠ AIProvider.None)
    (hN : 0 < (results.filter (fun r => !r.issues.isEmpty)).length) :
    ∃ t, analyze_findings env exec results = Except.ok t ∧
      execCount t.events =
        ((results.filter (fun r => !r.issues.isEmpty)).length + BATCH_SIZE - 1) / BATCH_SIZE ∧
      pauseCount t.events =
        ((results.filter (fun r => !r.issues.isEmpty)).length + BATCH_SIZE - 1) / BATCH_SIZE - 1 ∧
      t.events = expectedEvents 0
        (((results.filter (fun r => !r.issues.isEmpty)).length + BATCH_SIZE - 1) / BATCH_SIZE) ∧
      t.events.head? = some (Event.exec 0) ∧
      t.events.getLast? = some (Event.exec
        (((results.filter (fun r => !r.issues.isEmpty)).length + BATCH_SIZE - 1) / BATCH_SIZE - 1)) ∧
      (chunksOf BATCH_SIZE (results.filter (fun r => !r.issues.isEmpty))).flatten =
        results.filter (fun r => !r.issues.isEmpty) ∧
      (∀ b ∈ chunksOf BATCH_SIZE (results.filter (fun r => !r.issues.isEmpty)),
        b ≠ [] ∧ b.length ≤ BATCH_SIZE) := by
  rw [analyze_findings_of_detected env exec results hdet, if_neg (by omega)]
  have hk : 0 <
      ((results.filter (fun r => !r.issues.isEmpty)).length + BATCH_SIZE - 1) / BATCH_SIZE := by
    simp only [BATCH_SIZE] at hN ⊢
    omega
  have hev : (processBatches exec 0
      (chunksOf BATCH_SIZE (results.filter (fun r => !r.issues.isEmpty)))).2 =
      expectedEvents 0
        (((results.filter (fun r => !r.issues.isEmpty)).length + BATCH_SIZE - 1) / BATCH_SIZE) := by
    rw [processBatches_snd, chunksOf_length BATCH_SIZE (by decide)]
  refine ⟨_, rfl, ?_, ?_, hev, ?_, ?_, ?_, ?_⟩
  · rw [hev, expectedEvents_execCount]
  · rw [hev, expectedEvents_pauseCount]
  · rw [hev, expectedEvents_head? _ _ hk]
  · rw [hev, expectedEvents_getLast? _ _ hk, Nat.zero_add]
  · exact chunksOf_flatten BATCH_SIZE (by decide) _
  · exact fun b hb => chunksOf_mem BATCH_SIZE (by decide) _ b hb

/-- C2 witness: the spec scenario — 12 candidate Findings and batch size 5
give 3 executor calls and 2 pauses, the trace starting and ending with an
executor call. -/
theorem C2_witness :
    ∃ t, analyze_findings envGeminiOk execAllFail (List.replicate 12 sampleFinding) =
        Except.ok t ∧
      execCount t.events = 3 ∧ pauseCount t.events = 2 ∧
      t.events = [Event.exec 0, Event.pause, Event.exec 1, Event.pause, Event.exec 2] := by
  obtain ⟨t, ht, h1, h2, h3, -⟩ :=
    C2_executor_and_pause_counts envGeminiOk execAllFail (List.replicate 12 sampleFinding)
      (by decide) (by decide)
  refine ⟨t, ht, ?_, ?_, ?_⟩
  · rw [h1]; decide
  · rw [h2]; decide
  · rw [h3]; decide

/-- C2 counterexample: as stated ("for every run with N > 0 candidates"),
the claim is false: when no backend is detected, a run with one candidate
performs zero executor calls, not ⌈1/5⌉ = 1. -/
theorem C2_counterexample :
    ¬ (∀ (env : ProbeEnv) (exec : Nat → String → Except String String)
        (results : List SearchResult),
        0 < (results.filter (fun r => !r.issues.isEmpty)).length →
        ∃ t, analyze_findings env exec results = Except.ok t ∧
          execCount t.events =
            ((results.filter (fun r => !r.issues.isEmpty)).length + BATCH_SIZE - 1) /
              BATCH_SIZE) := by
  intro hclaim
  obtain ⟨t, ht, hcnt⟩ := hclaim envAllFail execAllFail [sampleFinding] (by decide)
  rw [show analyze_findings envAllFail execAllFail [sampleFinding] =
        Except.ok (RunTrace.mk [] [] [unavailableNotice]) from rfl] at ht
  rw [← Except.ok.inj ht] at hcnt
  exact absurd hcnt (by decide)

/-- C3: no batch failure aborts a run; whenever a provider is selected,
the insight list is exactly the concatenation, batch by batch in order, of
one insight per finding whose analysis text is the batch's returned text on
success and the fixed placeholder on failure; and a change in the executor's
behaviour from batch k onward never changes the insights of the first k
batches. -/
theorem C3_batch_failure_isolation (env : ProbeEnv)
    (exec : Nat → String → Except String String) (results : List SearchResult) :
    ∃ t, analyze_findings env exec results = Except.ok t ∧
      ((detect_available_provider env).1 ≠ AIProvider.None →
        t.insights =
          (List.enumFrom 0 (chunksOf BATCH_SIZE (results.filter (fun r => !r.issues.isEmpty)))).flatMap
            (fun p => p.2.map (fun dep => Insight.mk dep.dependency.name dep.dependency.version
              (textOf (exec p.1 (build_batch_prompt p.2))))) ∧
        (∀ e, textOf (Except.error e) = PLACEHOLDER_ANALYSIS) ∧
        (∀ s, textOf (Except.ok s) = s) ∧
        (∀ (g : Nat → String → Except String String) (k : Nat),
          (∀ j, j < k → g j = exec j) →
          ∃ t2, analyze_findings env g results = Except.ok t2 ∧
            t2.insights.take
                (prefLen (chunksOf BATCH_SIZE (results.filter (fun r => !r.issues.isEmpty))) k) =
              t.insights.take
                (prefLen (chunksOf BATCH_SIZE (results.filter (fun r => !r.issues.isEmpty))) k))) := by
  by_cases hdet : (detect_available_provider env).1 = AIProvider.None
  · exact ⟨_, analyze_findings_of_none env exec results hdet, fun h => absurd hdet h⟩
  · rw [analyze_findings_of_detected env exec results hdet]
    by_cases h0 : (results.filter (fun r => !r.issues.isEmpty)).length = 0
    · rw [if_pos h0]
      have hrel : results.filter (fun r => !r.issues.isEmpty) = [] := List.length_eq_zero.mp h0
      refine ⟨_, rfl, fun _ => ⟨?_, fun e => rfl, fun s => rfl, ?_⟩⟩
      · rw [hrel]; rfl
      · intro g k hg
        rw [analyze_findings_of_detected env g results hdet, if_pos h0]
        exact ⟨_, rfl, rfl⟩
    · rw [if_neg h0]
      refine ⟨_, rfl, fun _ => ⟨processBatches_fst exec _ 0, fun e => rfl, fun s => rfl, ?_⟩⟩
      intro g k hg
      rw [analyze_findings_of_detected env g results hdet, if_neg h0]
      exact ⟨_, rfl, processBatches_take_agree g exec _ 0 k (fun j hj1 hj2 => hg j (by omega))⟩

/-- C3 witness: one candidate finding, a failing executor, a detected
backend: the single insight carries the placeholder text and the run
returns success. -/
theorem C3_witness :
    ∃ t, analyze_findings envGeminiOk execAllFail [sampleFinding] = Except.ok t ∧
      t.insights = [Insight.mk "serde" "1.0.0" PLACEHOLDER_ANALYSIS] := by
  obtain ⟨t, ht, hprops⟩ := C3_batch_failure_isolation envGeminiOk execAllFail [sampleFinding]
  refine ⟨t, ht, ?_⟩
  rw [(hprops (by decide)).1]
  rfl

/-- C4: findings with zero issues are never candidates: they are never part
of any batch, and an input in which every finding has zero issues yields an
empty insight list with zero executor calls and zero pauses (an empty event
trace), whatever the environment and executor do. -/
theorem C4_zero_issue_findings_excluded (env : ProbeEnv)
    (exec : Nat → String → Except String String) (results : List SearchResult)
    (hall : ∀ r ∈ results, r.issues = []) :
    (∃ t, analyze_findings env exec results = Except.ok t ∧
      t.insights = [] ∧ t.events = []) ∧
    (∀ (results2 : List SearchResult) (b : List SearchResult),
      b ∈ chunksOf BATCH_SIZE (results2.filter (fun r => !r.issues.isEmpty)) →
      ∀ r ∈ b, r.issues ≠ []) := by
  constructor
  · by_cases hdet : (detect_available_provider env).1 = AIProvider.None
    · exact ⟨_, analyze_findings_of_none env exec results hdet, rfl, rfl⟩
    · have hrel : results.filter (fun r => !r.issues.isEmpty) = [] := by
        rw [List.filter_eq_nil_iff]
        intro a ha
        simp [hall a ha]
      rw [analyze_findings_of_detected env exec results hdet, if_pos (by rw [hrel]; rfl)]
      exact ⟨_, rfl, rfl, rfl⟩
  · intro results2 b hb r hr hcontra
    have hflat : r ∈ (chunksOf BATCH_SIZE (results2.filter (fun x => !x.issues.isEmpty))).flatten :=
      List.mem_flatten.mpr ⟨b, hb, hr⟩
    rw [chunksOf_flatten BATCH_SIZE (by decide)] at hflat
    have hp := List.of_mem_filter hflat
    simp [hcontra] at hp

/-- C4 witness: a detected backend and an input whose only finding has zero
issues: empty insight list, empty event trace. -/
theorem C4_witness :
    ∃ t, analyze_findings envGeminiOk execAllFail [noIssueFinding] = Except.ok t ∧
      t.insights = [] ∧ t.events = [] :=
  (C4_zero_issue_findings_excluded envGeminiOk execAllFail [noIssueFinding] (by decide)).1

/-- C5: the Backend Detector probes the Gemini binary-name variants in the
fixed priority order "gemini", "gemini.cmd", "gemini.exe", "gemini.bat" and
then the gh CLI; the first probe that exits with status zero wins with no
further probing, the winning command name is returned (cached for the run),
and when every probe fails the selection is None.  Selection is a pure
function of the probe environment, hence deterministic and stable within a
run; the engine invokes it exactly once, at the start of `analyze_findings`. -/
theorem C5_detector_priority (env : ProbeEnv) :
    (env.geminiOk "gemini" = true →
      detect_available_provider env = (AIProvider.GeminiCli, some "gemini")) ∧
    (env.geminiOk "gemini" = false → env.geminiOk "gemini.cmd" = true →
      detect_available_provider env = (AIProvider.GeminiCli, some "gemini.cmd")) ∧
    (env.geminiOk "gemini" = false → env.geminiOk "gemini.cmd" = false →
      env.geminiOk "gemini.exe" = true →
      detect_available_provider env = (AIProvider.GeminiCli, some "gemini.exe")) ∧
    (env.geminiOk "gemini" = false → env.geminiOk "gemini.cmd" = false →
      env.geminiOk "gemini.exe" = false → env.geminiOk "gemini.bat" = true →
      detect_available_provider env = (AIProvider.GeminiCli, some "gemini.bat")) ∧
    ((∀ c ∈ gemini_commands, env.geminiOk c = false) → env.ghOk = true →
      detect_available_provider env = (AIProvider.GitHubModels, Option.none)) ∧
    ((∀ c ∈ gemini_commands, env.geminiOk c = false) → env.ghOk = false →
      detect_available_provider env = (AIProvider.None, Option.none)) := by
  refine ⟨?_, ?_, ?_, ?_, ?_, ?_⟩
  · intro h1
    simp [detect_available_provider, gemini_commands, List.find?, h1]
  · intro h1 h2
    simp [detect_available_provider, gemini_commands, List.find?, h1, h2]
  · intro h1 h2 h3
    simp [detect_available_provider, gemini_commands, List.find?, h1, h2, h3]
  · intro h1 h2 h3 h4
    simp [detect_available_provider, gemini_commands, List.find?, h1, h2, h3, h4]
  · intro hg hgh
    have h1 : gemini_commands.find? (fun c => env.geminiOk c) = Option.none :=
      List.find?_eq_none.mpr (fun x hx => by simp [hg x hx])
    simp [detect_available_provider, h1, hgh]
  · exact fun hg hgh => detect_none_of_all_fail env hg hgh

/-- C5 witness: in an environment where the first probe succeeds, the
detector selects the Gemini CLI under the first binary name. -/
theorem C5_witness :
    detect_available_provider envGeminiOk = (AIProvider.GeminiCli, some "gemini") :=
  (C5_detector_priority envGeminiOk).1 rfl

/-- C7: when every Detector probe fails, the engine returns an empty Insight
list as a success, performs zero Backend Executor calls and zero Rate
Limiter pauses, and surfaces the user-visible unavailability notice — for
every input list. -/
theorem C7_no_backend_short_circuit (env : ProbeEnv)
    (exec : Nat → String → Except String String) (results : List SearchResult)
    (hg : ∀ c ∈ gemini_commands, env.geminiOk c = false) (hgh : env.ghOk = false) :
    analyze_findings env exec results = Except.ok (RunTrace.mk [] [] [unavailableNotice]) ∧
    ∃ t, analyze_findings env exec results = Except.ok t ∧ t.insights = [] ∧
      execCount t.events = 0 ∧ pauseCount t.events = 0 ∧ t.notices = [unavailableNotice] := by
  have hd := detect_none_of_all_fail env hg hgh
  have h1 := analyze_findings_of_none env exec results (by rw [hd])
  exact ⟨h1, _, h1, rfl, rfl, rfl, rfl⟩

/-- C7 witness: no probe succeeds, one candidate finding: success with the
empty insight list and the unavailability notice. -/
theorem C7_witness :
    analyze_findings envAllFail execAllFail [sampleFinding] =
      Except.ok (RunTrace.mk [] [] [unavailableNotice]) :=
  (C7_no_backend_short_circuit envAllFail execAllFail [sampleFinding] (by decide) rfl).1

/-- C10: `analyze_findings` always returns the success variant of its result
type — for every probe environment, every executor behaviour (failures
included) and every input list, the error variant is unreachable. -/
theorem C10_analysis_never_errors (env : ProbeEnv)
    (exec : Nat → String → Except String String) (results : List SearchResult) :
    ∃ t, analyze_findings env exec results = Except.ok t := by
  by_cases hdet : (detect_available_provider env).1 = AIProvider.None
  · exact ⟨_, analyze_findings_of_none env exec results hdet⟩
  · rw [analyze_findings_of_detected env exec results hdet]
    by_cases h0 : (results.filter (fun r => !r.issues.isEmpty)).length = 0
    · rw [if_pos h0]; exact ⟨_, rfl⟩
    · rw [if_neg h0]; exact ⟨_, rfl⟩

/-- C8: the Gemini CLI executor succeeds exactly when the process exits with
status zero, its standard output parses as the one-text-field JSON object,
and the parsed text is non-empty after stripping surrounding markdown code
fences; an empty-after-trim text and an unparseable output are failures, and
a non-zero exit is classified by searching standard error for "429"/"rate"
(rate limited), then "auth"/"login" (not authenticated), else generic. -/
theorem C8_gemini_cli_outcomes (spawn : Except String ProcessOutput)
    (parse : String → Option String) :
    (∀ out, spawn = Except.ok out → out.status_success = true →
      parse out.stdout = Option.none →
      call_gemini_cli spawn parse = Except.error "Failed to parse Gemini JSON") ∧
    (∀ out resp, spawn = Except.ok out → out.status_success = true →
      parse out.stdout = some resp →
      call_gemini_cli spawn parse =
        (if clean_gemini_text resp = "" then Except.error "Empty response from Gemini"
         else Except.ok (clean_gemini_text resp))) ∧
    (∀ out, spawn = Except.ok out → out.status_success = false →
      call_gemini_cli spawn parse = Except.error
        (if str_contains out.stderr "429" || str_contains out.stderr "rate" then
          "Rate limit hit. Try again later."
         else if str_contains out.stderr "auth" || str_contains out.stderr "login" then
          "Not authenticated. Run: gemini login"
         else "Gemini CLI error: " ++ out.stderr)) ∧
    (∀ e, spawn = Except.error e → call_gemini_cli spawn parse = Except.error e) ∧
    (∀ res, call_gemini_cli spawn parse = Except.ok res ↔
      ∃ out resp, spawn = Except.ok out ∧ out.status_success = true ∧
        parse out.stdout = some resp ∧ clean_gemini_text resp ≠ "" ∧
        res = clean_gemini_text resp) := by
  refine ⟨?_, ?_, ?_, ?_, ?_⟩
  · intro out hs hst hp
    subst hs
    simp [call_gemini_cli, hst, hp]
  · intro out resp hs hst hp
    subst hs
    simp [call_gemini_cli, hst, hp]
  · intro out hs hst
    subst hs
    by_cases h1 : str_contains out.stderr "429" || str_contains out.stderr "rate"
    · simp [call_gemini_cli, hst, h1]
    · by_cases h2 : str_contains out.stderr "auth" || str_contains out.stderr "login"
      · simp [call_gemini_cli, hst, h1, h2]
      · simp [call_gemini_cli, hst, h1, h2]
  · intro e hs
    subst hs
    rfl
  · intro res
    constructor
    · intro h
      match hsp : spawn with
      | Except.error e =>
        simp [call_gemini_cli] at h
      | Except.ok out =>
        match hst : out.status_success with
        | false =>
          by_cases h1 : str_contains out.stderr "429" || str_contains out.stderr "rate" <;>
            by_cases h2 : str_contains out.stderr "auth" || str_contains out.stderr "login" <;>
            simp [call_gemini_cli, hst, h1, h2] at h
        | true =>
          match hp : parse out.stdout with
          | Option.none => simp [call_gemini_cli, hst, hp] at h
          | some resp =>
            by_cases hcl : clean_gemini_text resp = ""
            · simp [call_gemini_cli, hst, hp, hcl] at h
            · refine ⟨out, resp, rfl, hst, hp, hcl, ?_⟩
              simp [call_gemini_cli, hst, hp, hcl] at h
              exact h.symm
    · rintro ⟨out, resp, hs, hst, hp, hcl, hres⟩
      subst hs
      subst hres
      simp [call_gemini_cli, hst, hp, hcl]

/-- C8 witness: exit zero, a parseable response "hello": success with the
cleaned text. -/
theorem C8_witness :
    call_gemini_cli (Except.ok (ProcessOutput.mk true "raw" "")) (fun _ => some "hello") =
      Except.ok "hello" := by
  have h := (C8_gemini_cli_outcomes (Except.ok (ProcessOutput.mk true "raw" ""))
    (fun _ => some "hello")).2.1 (ProcessOutput.mk true "raw" "") "hello" rfl rfl rfl
  rw [show clean_gemini_text "hello" = "hello" from by decide] at h
  rw [if_neg (show ¬("hello" = "") from by decide)] at h
  exact h

/-- C9: the gh-models executor succeeds exactly when the process exits with
status zero and its standard output is non-empty after trimming (the
untrimmed output is returned); a non-zero exit is classified by searching
standard error for "403"/"no_access" into an entitlement failure versus a
generic one; and the invocation always passes the `--max-tokens 2048` cap. -/
theorem C9_gh_models_outcomes (spawn : Except String ProcessOutput) :
    (∀ out, spawn = Except.ok out → out.status_success = true →
      call_gh_models spawn =
        (if rustTrim out.stdout = "" then Except.error "Empty response from GitHub Models"
         else Except.ok out.stdout)) ∧
    (∀ out, spawn = Except.ok out → out.status_success = false →
      call_gh_models spawn = Except.error
        (if str_contains out.stderr "403" || str_contains out.stderr "no_access" then
          "No access to model. Ensure you have Copilot subscription."
         else "GitHub Models error: " ++ out.stderr)) ∧
    (∀ e, spawn = Except.error e → call_gh_models spawn = Except.error e) ∧
    (∀ res, call_gh_models spawn = Except.ok res ↔
      ∃ out, spawn = Except.ok out ∧ out.status_success = true ∧
        rustTrim out.stdout ≠ "" ∧ res = out.stdout) ∧
    (∀ prompt, "--max-tokens" ∈ gh_models_args prompt ∧ "2048" ∈ gh_models_args prompt) := by
  refine ⟨?_, ?_, ?_, ?_, ?_⟩
  · intro out hs hst
    subst hs
    simp [call_gh_models, hst]
  · intro out hs hst
    subst hs
    by_cases h1 : str_contains out.stderr "403" || str_contains out.stderr "no_access"
    · simp [call_gh_models, hst, h1]
    · simp [call_gh_models, hst, h1]
  · intro e hs
    subst hs
    rfl
  · intro res
    constructor
    · intro h
      match hsp : spawn with
      | Except.error e =>
        simp [call_gh_models] at h
      | Except.ok out =>
        match hst : out.status_success with
        | false =>
          by_cases h1 : str_contains out.stderr "403" || str_contains out.stderr "no_access" <;>
            simp [call_gh_models, hst, h1] at h
        | true =>
          by_cases htr : rustTrim out.stdout = ""
          · simp [call_gh_models, hst, htr] at h
          · refine ⟨out, rfl, hst, htr, ?_⟩
            simp [call_gh_models, hst, htr] at h
            exact h.symm
    · rintro ⟨out, hs, hst, htr, hres⟩
      subst hs
      subst hres
      simp [call_gh_models, hst, htr]
  · intro prompt
    constructor <;> simp [gh_models_args]

/-- C9 witness: non-zero exit with an access-denied signature on standard
error: classified as the entitlement failure. -/
theorem C9_witness :
    call_gh_models (Except.ok (ProcessOutput.mk false "" "HTTP 403: no_access")) =
      Except.error "No access to model. Ensure you have Copilot subscription." := by
  have h := (C9_gh_models_outcomes
    (Except.ok (ProcessOutput.mk false "" "HTTP 403: no_access"))).2.1
    (ProcessOutput.mk false "" "HTTP 403: no_access") rfl rfl
  rw [show (ProcessOutput.mk false "" "HTTP 403: no_access").stderr = "HTTP 403: no_access"
        from rfl] at h
  rw [if_pos (show (str_contains "HTTP 403: no_access" "403" ||
        str_contains "HTTP 403: no_access" "no_access") = true from by decide)] at h
  exact h
